import Mathlib

/-!
Shallow embedding of `smile_datasets/simcse/unsup_dataset.py`
(unsupervised SimCSE data pipeline) and proofs of its specification claims.

An example is a triple of integer sequences `(input_ids, segment_ids,
attention_mask)`.  The pipeline element flowing through the lazy dataset
after `tf.data.Dataset.zip` is modelled as a triple of `List Int`.
-/

namespace UnsupSimCSE

/-- The canonical in-memory unit: three integer sequences
(`ExampleForUnsupervisedSimCSE` in `example.py`; only its three fields are
relevant to the pipeline). -/
structure SimCSEExample where
  input_ids : List Int
  segment_ids : List Int
  attention_mask : List Int
deriving Repr, DecidableEq

/-- One element of the zipped dataset: `(input_ids, segment_ids, attention_mask)`. -/
abbrev Element := List Int × List Int × List Int

/-! ## Record codec: `save_tfrecord` encoding and `from_tfrecord_files` decoding -/

/-- Two's-complement wrap of an integer into a signed 64-bit value, the storage
width of a tfrecord `int64_list` feature (`utils.int64_feature`). -/
def int64_wrap (x : Int) : Int := (x + 2 ^ 63) % 2 ^ 64 - 2 ^ 63

/-- Two's-complement wrap of an integer into a signed 32-bit value,
the semantics of `tf.cast(·, tf.int32)`. -/
def int32_wrap (x : Int) : Int := (x + 2 ^ 31) % 2 ^ 32 - 2 ^ 31

/-- A persisted tfrecord: three named int64-list features. -/
structure TFRecord where
  input_ids : List Int
  segment_ids : List Int
  attention_mask : List Int
deriving Repr, DecidableEq

/-- Modelled from the spec: `utils.int64_feature`/`utils.save_tfrecord` are not
under `src/`; per spec §4.3 encoding maps each of the three sequences to an
integer-list field of the named schema, stored at int64 width.  The per-example
`_encoding` closure of `DatasetForUnsupervisedSimCSE.save_tfrecord` builds the
feature dict `{input_ids, segment_ids, attention_mask}` from `int(x)` casts. -/
def save_tfrecord_encoding (e : SimCSEExample) : TFRecord :=
  { input_ids := e.input_ids.map int64_wrap
    segment_ids := e.segment_ids.map int64_wrap
    attention_mask := e.attention_mask.map int64_wrap }

/-- The parse/densify/cast stage of
`DatapipeForUnsupervisedSimCSE.from_tfrecord_files`: each `VarLenFeature`
int64 list is parsed, densified (identity on a rank-1 varlen list) and cast to
`tf.int32`. -/
def from_tfrecord_parse (r : TFRecord) : Element :=
  (r.input_ids.map int32_wrap, r.segment_ids.map int32_wrap,
    r.attention_mask.map int32_wrap)

/-- A value within signed 32-bit range. -/
def inInt32Range (x : Int) : Prop := -(2 ^ 31) ≤ x ∧ x < 2 ^ 31

instance (x : Int) : Decidable (inInt32Range x) := by
  unfold inInt32Range; infer_instance

theorem int32_wrap_int64_wrap_eq (x : Int) (h : inInt32Range x) :
    int32_wrap (int64_wrap x) = x := by
  obtain ⟨h1, h2⟩ := h
  unfold int64_wrap int32_wrap
  omega

theorem map_wrap_roundtrip (l : List Int) (h : ∀ x ∈ l, inInt32Range x) :
    (l.map int64_wrap).map int32_wrap = l := by
  induction l with
  | nil => rfl
  | cons a t ih =>
      simp only [List.map_cons, List.cons.injEq]
      exact ⟨int32_wrap_int64_wrap_eq a (h a (by simp)),
        ih fun x hx => h x (by simp [hx])⟩

/-! ## Filter stage -/

/-- `DatapipeForUnsupervisedSimCSE._filter`: when `do_filter` is set, keep
exactly the elements whose `input_ids` size is at most `max_sequence_length`
(`dataset.filter(lambda a, b, c: tf.size(a) <= max_sequence_length)`). -/
def filter_stage (do_filter : Bool) (max_sequence_length : Nat)
    (dataset : List Element) : List Element :=
  if do_filter then
    dataset.filter (fun e => decide (e.1.length ≤ max_sequence_length))
  else dataset

/-! ## Shape stage -/

/-- The dict shape `{"input_ids": x, "segment_ids": y, "attention_mask": z}`. -/
structure FeatureDict where
  input_ids : List Int
  segment_ids : List Int
  attention_mask : List Int
deriving Repr, DecidableEq

/-- Output shape of the `_to_dict` stage: a named-fields mapping or a plain
triple, whichever branch was taken. -/
inductive Shaped where
  | asDict (d : FeatureDict)
  | asTuple (t : Element)
deriving Repr, DecidableEq

/-- `DatapipeForUnsupervisedSimCSE._to_dict`: re-pair each triple as
`({"input_ids": x, "segment_ids": y, "attention_mask": z}, None)` when
`to_dict` is set, else `((a, b, c), None)`.  The second component is the
`None` label placeholder, modelled as `Option Int` with value `none`. -/
def to_dict_stage (to_dict : Bool) (e : Element) : Shaped × Option Int :=
  if to_dict then
    (Shaped.asDict ⟨e.1, e.2.1, e.2.2⟩, none)
  else
    (Shaped.asTuple (e.1, e.2.1, e.2.2), none)

/-! ## Padding machinery

`utils.batching_and_padding` and `utils.bucketing_and_padding` are invoked by
`_fixed_padding`, `_batch_padding` and `_bucket_padding` with the
`padded_shapes` and `padding_values` built in those methods. -/

/-- Right-pad a sequence with `pad_id` up to length `n` (no-op when the
sequence is already at least that long). -/
def pad_to (pad_id : Int) (n : Nat) (xs : List Int) : List Int :=
  xs ++ List.replicate (n - xs.length) pad_id

/-- Worker for `chunkList`, structurally recursive on a fuel bound that
dominates the list length. -/
def chunkGo (fuel n : Nat) (l : List α) : List (List α) :=
  match fuel, l with
  | _, [] => []
  | 0, _ :: _ => []
  | fuel + 1, x :: xs => (x :: xs.take (n - 1)) :: chunkGo fuel n (xs.drop (n - 1))

/-- Group a stream into consecutive batches of (at most) `n` elements,
in pipeline order. -/
def chunkList (n : Nat) (l : List α) : List (List α) := chunkGo l.length n l

/-- Length of the longest `input_ids` sequence in a batch. -/
def maxLenA (b : List Element) : Nat :=
  b.foldr (fun e m => max e.1.length m) 0

/-- Length of the longest `segment_ids` sequence in a batch. -/
def maxLenB (b : List Element) : Nat :=
  b.foldr (fun e m => max e.2.1.length m) 0

/-- Length of the longest `attention_mask` sequence in a batch. -/
def maxLenC (b : List Element) : Nat :=
  b.foldr (fun e m => max e.2.2.length m) 0

/-- Pad every component of every element of a batch with `pad_id` up to that
component's longest length in the batch (the `padded_shapes=([None], [None],
[None])` semantics of a padded batch). -/
def padBatch (pad_id : Int) (b : List Element) : List Element :=
  b.map fun e =>
    (pad_to pad_id (maxLenA b) e.1,
     pad_to pad_id (maxLenB b) e.2.1,
     pad_to pad_id (maxLenC b) e.2.2)

/-- Pad or truncate one sequence to length exactly `m`
(the `padded_shapes=[maxlen]` semantics of fixed padding). -/
def fixed_row (pad_id : Int) (m : Nat) (xs : List Int) : List Int :=
  xs.take m ++ List.replicate (m - xs.length) pad_id

/-- Modelled from the spec: `utils.batching_and_padding` is not under `src/`.
Per spec §4.5, fixed padding batches the stream (batch size `bs`) and pads or
truncates every sequence of every field to the caller-supplied
`max_sequence_length`, filling with the `pad_id` that
`DatapipeForUnsupervisedSimCSE._fixed_padding` passes for all three fields. -/
def fixed_padding (pad_id : Int) (max_sequence_length bs : Nat)
    (dataset : List Element) : List (List Element) :=
  (chunkList bs dataset).map
    (List.map fun e =>
      (fixed_row pad_id max_sequence_length e.1,
       fixed_row pad_id max_sequence_length e.2.1,
       fixed_row pad_id max_sequence_length e.2.2))

/-- Modelled from the spec: `utils.batching_and_padding` is not under `src/`.
Per spec §4.5, batch padding groups the stream into batches of size `bs` in
pipeline order (no sorting) and pads each batch to the length of its own
longest member, filling with the `pad_id` that
`DatapipeForUnsupervisedSimCSE._batch_padding` passes for all three fields. -/
def batch_padding (pad_id : Int) (bs : Nat) (dataset : List Element) :
    List (List Element) :=
  (chunkList bs dataset).map (padBatch pad_id)

/-- The members of bucket `k`, in pipeline order: the elements whose bucket
key is `k`.  The bucketing key is `tf.size(a)` — the `input_ids` length — as
passed by `DatapipeForUnsupervisedSimCSE._bucket_padding` via
`bucket_fn=lambda a, b, c: tf.size(a)`; `bucket_of` maps that key to a bucket
id (the boundary layout is configuration of the external engine). -/
def bucketMembers (bucket_of : Nat → Nat) (k : Nat) (dataset : List Element) :
    List Element :=
  dataset.filter (fun e => bucket_of e.1.length == k)

/-- Modelled from the spec: `utils.bucketing_and_padding` is not under `src/`.
Per spec §4.5, bucket padding assigns each element to a length bucket keyed on
its `input_ids` length and pads each bucket's batch to that bucket's own
longest member, filling with the `pad_id` that
`DatapipeForUnsupervisedSimCSE._bucket_padding` passes for all three fields. -/
def bucket_padding (pad_id : Int) (bucket_of : Nat → Nat) (k : Nat)
    (dataset : List Element) : List Element :=
  padBatch pad_id (bucketMembers bucket_of k dataset)

/-! ## Dataset builder entry points -/

/-- `DatapipeForUnsupervisedSimCSE.from_examples`: on an empty or null example
collection, log a warning and return `None` (the "no dataset" sentinel,
modelled as `Option.none`); otherwise zip the three per-field sequences into
the element stream consumed by the transformation pipeline. -/
def from_examples (examples : List SimCSEExample) : Option (List Element) :=
  if examples.isEmpty then none
  else some (examples.map fun e => (e.input_ids, e.segment_ids, e.attention_mask))

/-- The accumulation loop of `DatapipeForUnsupervisedSimCSE.from_instances`:
skip each falsy (empty) instance, parse the rest, skip each instance whose
parse result is falsy (`None`), and keep the surviving examples in order.
The parser (`ParserForUnsupervisedSimCSE.parse`) is an external collaborator
here, abstracted as `parse : String → Option SimCSEExample`. -/
def collect_examples (parse : String → Option SimCSEExample) :
    List String → List SimCSEExample
  | [] => []
  | instance_ :: rest =>
      if instance_ = "" then collect_examples parse rest
      else
        match parse instance_ with
        | none => collect_examples parse rest
        | some e => e :: collect_examples parse rest

/-- `DatapipeForUnsupervisedSimCSE.from_instances`: run the collection loop,
then hand the surviving examples to `from_examples`. -/
def from_instances (parse : String → Option SimCSEExample)
    (instances : List String) : Option (List Element) :=
  from_examples (collect_examples parse instances)

/-! ## Helper lemmas -/

theorem pad_to_length (p : Int) (n : Nat) (xs : List Int) :
    (pad_to p n xs).length = max xs.length n := by
  simp only [pad_to, List.length_append, List.length_replicate]
  omega

theorem fixed_row_length (p : Int) (m : Nat) (xs : List Int) :
    (fixed_row p m xs).length = m := by
  simp only [fixed_row, List.length_append, List.length_take, List.length_replicate]
  omega

theorem chunkGo_flatten (n : Nat) :
    ∀ (fuel : Nat) (l : List α), l.length ≤ fuel → (chunkGo fuel n l).flatten = l := by
  intro fuel
  induction fuel with
  | zero =>
      intro l hl
      cases l with
      | nil => rfl
      | cons x xs => simp at hl
  | succ fuel ih =>
      intro l hl
      cases l with
      | nil => rfl
      | cons x xs =>
          simp only [chunkGo, List.flatten_cons]
          rw [ih (xs.drop (n - 1))
            (by simp only [List.length_drop]; simp only [List.length_cons] at hl; omega)]
          simp [List.cons_append, List.take_append_drop]

theorem chunkList_flatten (n : Nat) (l : List α) : (chunkList n l).flatten = l :=
  chunkGo_flatten n l.length l le_rfl

theorem chunkGo_mem_length {n : Nat} (hn : 0 < n) :
    ∀ (fuel : Nat) (l : List α), l.length ≤ fuel →
      ∀ b ∈ chunkGo fuel n l, 0 < b.length ∧ b.length ≤ n := by
  intro fuel
  induction fuel with
  | zero =>
      intro l hl b hb
      cases l with
      | nil => simp [chunkGo] at hb
      | cons x xs => simp at hl
  | succ fuel ih =>
      intro l hl b hb
      cases l with
      | nil => simp [chunkGo] at hb
      | cons x xs =>
          simp only [chunkGo] at hb
          rcases List.mem_cons.mp hb with h | h
          · subst h
            simp only [List.length_cons, List.length_take]
            omega
          · exact ih (xs.drop (n - 1))
              (by simp only [List.length_drop]; simp only [List.length_cons] at hl; omega)
              b h

theorem chunkList_mem_length {n : Nat} (hn : 0 < n) (l : List α) :
    ∀ b ∈ chunkList n l, 0 < b.length ∧ b.length ≤ n :=
  chunkGo_mem_length hn l.length l le_rfl

theorem chunkGo_mem_length_dvd {n : Nat} (hn : 0 < n) :
    ∀ (fuel : Nat) (l : List α), l.length ≤ fuel → n ∣ l.length →
      ∀ b ∈ chunkGo fuel n l, b.length = n := by
  intro fuel
  induction fuel with
  | zero =>
      intro l hl _ b hb
      cases l with
      | nil => simp [chunkGo] at hb
      | cons x xs => simp at hl
  | succ fuel ih =>
      intro l hl hdvd b hb
      cases l with
      | nil => simp [chunkGo] at hb
      | cons x xs =>
          simp only [List.length_cons] at hl hdvd
          have hlen : n ≤ xs.length + 1 := Nat.le_of_dvd (by omega) hdvd
          simp only [chunkGo] at hb
          rcases List.mem_cons.mp hb with h | h
          · subst h
            simp only [List.length_cons, List.length_take]
            omega
          · refine ih (xs.drop (n - 1)) ?_ ?_ b h
            · simp only [List.length_drop]; omega
            · have hsub : n ∣ (xs.length + 1) - n := Nat.dvd_sub' hdvd dvd_rfl
              simpa only [List.length_drop,
                (by omega : xs.length - (n - 1) = (xs.length + 1) - n)] using hsub

theorem chunkList_mem_length_dvd {n : Nat} (hn : 0 < n) (l : List α)
    (hdvd : n ∣ l.length) : ∀ b ∈ chunkList n l, b.length = n :=
  chunkGo_mem_length_dvd hn l.length l le_rfl hdvd

theorem length_le_maxLenA : ∀ (b : List Element), ∀ e ∈ b, e.1.length ≤ maxLenA b := by
  intro b
  induction b with
  | nil => simp
  | cons x t ih =>
      intro e he
      rcases List.mem_cons.mp he with h | h
      · subst h; simp [maxLenA]
      · have := ih e h
        simp only [maxLenA, List.foldr_cons] at *
        omega

theorem maxLenB_eq_maxLenA (b : List Element)
    (h : ∀ e ∈ b, e.2.1.length = e.1.length) : maxLenB b = maxLenA b := by
  induction b with
  | nil => rfl
  | cons x t ih =>
      simp only [maxLenA, maxLenB, List.foldr_cons] at *
      rw [h x (by simp), ih fun e he => h e (by simp [he])]

theorem maxLenC_eq_maxLenA (b : List Element)
    (h : ∀ e ∈ b, e.2.2.length = e.1.length) : maxLenC b = maxLenA b := by
  induction b with
  | nil => rfl
  | cons x t ih =>
      simp only [maxLenA, maxLenC, List.foldr_cons] at *
      rw [h x (by simp), ih fun e he => h e (by simp [he])]

/-- `padded` is `orig` right-padded with `pad_id` (its defined positions agree
with `orig` where `orig` is defined and hold `pad_id` beyond `orig`'s end). -/
def padsFrom (pad_id : Int) (orig padded : List Int) : Prop :=
  ∀ i < padded.length,
    padded.getD i 0 = if i < orig.length then orig.getD i 0 else pad_id

instance (p : Int) (a b : List Int) : Decidable (padsFrom p a b) := by
  unfold padsFrom
  exact Nat.decidableBallLT _ _

theorem padsFrom_pad_to (p : Int) (n : Nat) (xs : List Int) :
    padsFrom p xs (pad_to p n xs) := by
  intro i hi
  rw [List.getD_eq_getElem _ _ hi]
  unfold pad_to at hi ⊢
  by_cases h : i < xs.length
  · rw [List.getElem_append_left h, if_pos h, List.getD_eq_getElem _ _ h]
  · rw [List.getElem_append_right (Nat.le_of_not_lt h), List.getElem_replicate,
      if_neg h]

theorem padsFrom_fixed_row (p : Int) (m : Nat) (xs : List Int) :
    padsFrom p xs (fixed_row p m xs) := by
  intro i hi
  rw [List.getD_eq_getElem _ _ hi]
  have hm : i < m := by
    have := fixed_row_length p m xs
    omega
  unfold fixed_row at hi ⊢
  by_cases h : i < xs.length
  · have htake : i < (xs.take m).length := by
      simp only [List.length_take]
      omega
    rw [List.getElem_append_left htake, List.getElem_take, if_pos h,
      List.getD_eq_getElem _ _ h]
  · have hge : (xs.take m).length ≤ i := by
      simp only [List.length_take]
      omega
    rw [List.getElem_append_right hge, List.getElem_replicate, if_neg h]

theorem getD_map_of_lt (f : α → β) (l : List α) (d : β) (d' : α) {i : Nat}
    (hi : i < l.length) : (l.map f).getD i d = f (l.getD i d') := by
  rw [List.getD_eq_getElem _ _ (by simpa using hi), List.getElem_map,
    List.getD_eq_getElem _ _ hi]

theorem mem_filter_stage_true {M : Nat} {ds : List Element} {e : Element} :
    e ∈ filter_stage true M ds ↔ e ∈ ds ∧ e.1.length ≤ M := by
  simp [filter_stage, List.mem_filter]

/-! ## Claim theorems -/

/-- C1: for every valid Example (three equal-length integer sequences whose
values fit the 32-bit cast width), decoding the persisted record produced by
the `save_tfrecord` encoding through the `from_tfrecord_files`
parse/densify/cast stage reproduces the original `input_ids`, `segment_ids`
and `attention_mask` sequences exactly. -/
theorem tfrecord_roundtrip (e : SimCSEExample)
    (_hlen : e.segment_ids.length = e.input_ids.length ∧
      e.attention_mask.length = e.input_ids.length)
    (h1 : ∀ x ∈ e.input_ids, inInt32Range x)
    (h2 : ∀ x ∈ e.segment_ids, inInt32Range x)
    (h3 : ∀ x ∈ e.attention_mask, inInt32Range x) :
    from_tfrecord_parse (save_tfrecord_encoding e) =
      (e.input_ids, e.segment_ids, e.attention_mask) := by
  simp only [from_tfrecord_parse, save_tfrecord_encoding, Prod.mk.injEq]
  exact ⟨map_wrap_roundtrip _ h1, map_wrap_roundtrip _ h2, map_wrap_roundtrip _ h3⟩

theorem tfrecord_roundtrip_witness :
    from_tfrecord_parse
        (save_tfrecord_encoding ⟨[101, 7592, 102], [0, 0, 0], [1, 1, 1]⟩) =
      ([101, 7592, 102], [0, 0, 0], [1, 1, 1]) :=
  tfrecord_roundtrip ⟨[101, 7592, 102], [0, 0, 0], [1, 1, 1]⟩
    (by decide) (by decide) (by decide) (by decide)

/-- C3: with `do_filter=True` and bound `M`, an element survives the filter
stage iff its `input_ids` length is at most `M` (inclusive bound), and every
dropped element had `input_ids` length strictly greater than `M`. -/
theorem filter_stage_spec (M : Nat) (ds : List Element) :
    (∀ e ∈ filter_stage true M ds, e.1.length ≤ M) ∧
    (∀ e ∈ ds, e.1.length ≤ M → e ∈ filter_stage true M ds) ∧
    (∀ e ∈ ds, e ∉ filter_stage true M ds → M < e.1.length) := by
  refine ⟨fun e he => (mem_filter_stage_true.mp he).2,
    fun e he hl => mem_filter_stage_true.mpr ⟨he, hl⟩,
    fun e he hn => ?_⟩
  by_contra h
  exact hn (mem_filter_stage_true.mpr ⟨he, by omega⟩)

theorem filter_stage_spec_witness :
    (([1, 2], [0, 0], [1, 1]) : Element) ∈
      filter_stage true 2
        [([1, 2], [0, 0], [1, 1]), ([1, 2, 3], [0, 0, 0], [1, 1, 1])] ∧
    2 < (([1, 2, 3], [0, 0, 0], [1, 1, 1]) : Element).1.length :=
  ⟨(filter_stage_spec 2
      [([1, 2], [0, 0], [1, 1]), ([1, 2, 3], [0, 0, 0], [1, 1, 1])]).2.1
      ([1, 2], [0, 0], [1, 1]) (by decide) (by decide),
   (filter_stage_spec 2
      [([1, 2], [0, 0], [1, 1]), ([1, 2, 3], [0, 0, 0], [1, 1, 1])]).2.2
      ([1, 2, 3], [0, 0, 0], [1, 1, 1]) (by decide) (by decide)⟩

/-- C10: the filter predicate is computed from the size of `input_ids` alone:
an element whose `segment_ids` or `attention_mask` is arbitrarily long still
survives whenever its `input_ids` length is at most `max_sequence_length`. -/
theorem filter_stage_only_first_field (M : Nat) (ds : List Element)
    (a b c : List Int) (hmem : (a, b, c) ∈ ds) (hlen : a.length ≤ M) :
    (a, b, c) ∈ filter_stage true M ds :=
  mem_filter_stage_true.mpr ⟨hmem, hlen⟩

theorem filter_stage_only_first_field_witness :
    ([1, 2], [0, 0, 0, 0, 0], [1, 1, 1, 1, 1]) ∈
      filter_stage true 2 [([1, 2], [0, 0, 0, 0, 0], [1, 1, 1, 1, 1])] ∧
    2 < ([0, 0, 0, 0, 0] : List Int).length :=
  ⟨filter_stage_only_first_field 2 [([1, 2], [0, 0, 0, 0, 0], [1, 1, 1, 1, 1])]
      [1, 2] [0, 0, 0, 0, 0] [1, 1, 1, 1, 1] (by decide) (by decide),
   by decide⟩

/-- C8: the shape stage maps `(a, b, c)` to
`({input_ids := a, segment_ids := b, attention_mask := c}, None)` when
`to_dict` is set, else to `((a, b, c), None)`; in both cases the second
component is the `None` label placeholder and the values are unchanged. -/
theorem to_dict_stage_spec (a b c : List Int) :
    to_dict_stage true (a, b, c) =
      (Shaped.asDict ⟨a, b, c⟩, none) ∧
    to_dict_stage false (a, b, c) = (Shaped.asTuple (a, b, c), none) :=
  ⟨rfl, rfl⟩

/-- C4: `from_examples` returns the "no dataset" sentinel (`None`) exactly on
an empty example collection; on a non-empty collection it returns a dataset,
never the sentinel and never an exception (the function is total). -/
theorem from_examples_no_dataset (examples : List SimCSEExample) :
    from_examples examples = none ↔ examples = [] := by
  cases examples <;> simp [from_examples]

theorem from_examples_no_dataset_witness :
    from_examples [] = none ∧
    from_examples [⟨[1], [0], [1]⟩] ≠ none :=
  ⟨(from_examples_no_dataset []).mpr rfl,
   fun h => by simpa using (from_examples_no_dataset [⟨[1], [0], [1]⟩]).mp h⟩

/-- C9: `from_instances` drops each empty instance before parsing, parses the
rest, silently drops each instance whose parse result is the null sentinel,
and passes exactly the surviving examples in their original order to
`from_examples`. -/
theorem from_instances_spec (parse : String → Option SimCSEExample)
    (instances : List String) :
    collect_examples parse instances =
      (instances.filter fun i => !(i == "")).filterMap parse ∧
    from_instances parse instances =
      from_examples ((instances.filter fun i => !(i == "")).filterMap parse) := by
  have h : ∀ l : List String,
      collect_examples parse l = (l.filter fun i => !(i == "")).filterMap parse := by
    intro l
    induction l with
    | nil => rfl
    | cons x t ih =>
        simp only [collect_examples]
        by_cases hx : x = ""
        · simp [hx, ih]
        · simp only [if_neg hx]
          cases hp : parse x with
          | none => simp [List.filter_cons, hx, List.filterMap_cons, hp, ih]
          | some e => simp [List.filter_cons, hx, List.filterMap_cons, hp, ih]
  exact ⟨h instances, by rw [from_instances, h instances]⟩

theorem padBatch_row_length (pad_id : Int) (b : List Element)
    (hsq : ∀ e ∈ b, e.2.1.length = e.1.length ∧ e.2.2.length = e.1.length) :
    ∀ r ∈ padBatch pad_id b,
      r.1.length = maxLenA b ∧ r.2.1.length = maxLenA b ∧
      r.2.2.length = maxLenA b := by
  intro r hr
  rcases List.mem_map.mp hr with ⟨e, he, rfl⟩
  have hA := length_le_maxLenA b e he
  have hB : maxLenB b = maxLenA b := maxLenB_eq_maxLenA b fun e he => (hsq e he).1
  have hC : maxLenC b = maxLenA b := maxLenC_eq_maxLenA b fun e he => (hsq e he).2
  have heB := (hsq e he).1
  have heC := (hsq e he).2
  refine ⟨?_, ?_, ?_⟩
  · rw [pad_to_length]; omega
  · rw [pad_to_length, hB]; omega
  · rw [pad_to_length, hC]; omega

/-- C5: under fixed padding with bound `M`, every input sequence — including
one longer than `M` — is padded or truncated to length exactly `M`, so every
output batch has shape exactly `(batch_size, M)` for all three fields, and
positions beyond an example's true length hold `pad_id`. -/
theorem fixed_padding_spec (pad_id : Int) (M bs : Nat) (ds : List Element)
    (hbs : 0 < bs) (hdvd : bs ∣ ds.length) :
    (∀ batch ∈ fixed_padding pad_id M bs ds, batch.length = bs ∧
      ∀ r ∈ batch, r.1.length = M ∧ r.2.1.length = M ∧ r.2.2.length = M) ∧
    (fixed_padding pad_id M bs ds).flatten =
      ds.map (fun e => (fixed_row pad_id M e.1, fixed_row pad_id M e.2.1,
        fixed_row pad_id M e.2.2)) ∧
    (∀ xs : List Int, ∀ i, xs.length ≤ i → i < M →
      (fixed_row pad_id M xs).getD i 0 = pad_id) := by
  refine ⟨?_, ?_, ?_⟩
  · intro batch hb
    rcases List.mem_map.mp hb with ⟨b, hbmem, rfl⟩
    refine ⟨?_, ?_⟩
    · rw [List.length_map]
      exact chunkList_mem_length_dvd hbs ds hdvd b hbmem
    · intro r hr
      rcases List.mem_map.mp hr with ⟨e, he, rfl⟩
      exact ⟨fixed_row_length pad_id M e.1, fixed_row_length pad_id M e.2.1,
        fixed_row_length pad_id M e.2.2⟩
  · rw [fixed_padding, ← List.map_flatten, chunkList_flatten]
  · intro xs i h1 h2
    have hlen : i < (fixed_row pad_id M xs).length := by
      rw [fixed_row_length]; exact h2
    have h := padsFrom_fixed_row pad_id M xs i hlen
    rwa [if_neg (Nat.not_lt.mpr h1)] at h

theorem fixed_padding_spec_witness :
    (0 : Nat) < 2 ∧
    (2 : Nat) ∣ ([([1, 2, 3, 4], [0], [1]), ([5], [0], [1])] : List Element).length ∧
    (fixed_padding 0 2 2 [([1, 2, 3, 4], [0], [1]), ([5], [0], [1])]).flatten =
      ([([1, 2, 3, 4], [0], [1]), ([5], [0], [1])] : List Element).map
        (fun e => (fixed_row 0 2 e.1, fixed_row 0 2 e.2.1, fixed_row 0 2 e.2.2)) :=
  ⟨by decide, by decide,
   (fixed_padding_spec 0 2 2 [([1, 2, 3, 4], [0], [1]), ([5], [0], [1])]
      (by decide) (by decide)).2.1⟩

/-- C6: under batch padding, the stream is grouped into batches of the
configured size in pipeline order without sorting (concatenating the batches
recovers the input stream), and each batch is padded to the length of its own
longest member, not to any external bound. -/
theorem batch_padding_spec (pad_id : Int) (bs : Nat) (ds : List Element)
    (hbs : 0 < bs)
    (hsq : ∀ e ∈ ds, e.2.1.length = e.1.length ∧ e.2.2.length = e.1.length) :
    (chunkList bs ds).flatten = ds ∧
    (∀ b ∈ chunkList bs ds, 0 < b.length ∧ b.length ≤ bs ∧
      ∀ r ∈ padBatch pad_id b,
        r.1.length = maxLenA b ∧ r.2.1.length = maxLenA b ∧
        r.2.2.length = maxLenA b) := by
  refine ⟨chunkList_flatten bs ds, ?_⟩
  intro b hb
  have hmem : ∀ e ∈ b, e ∈ ds := by
    intro e he
    rw [← chunkList_flatten bs ds]
    exact List.mem_flatten.mpr ⟨b, hb, he⟩
  obtain ⟨h1, h2⟩ := chunkList_mem_length hbs ds b hb
  exact ⟨h1, h2, padBatch_row_length pad_id b fun e he => hsq e (hmem e he)⟩

theorem batch_padding_spec_witness :
    chunkList 2 [([1, 2, 3], [0, 0, 0], [1, 1, 1]),
        ([4, 5, 6, 7, 8, 9, 10], [0, 0, 0, 0, 0, 0, 0], [1, 1, 1, 1, 1, 1, 1])] =
      [[([1, 2, 3], [0, 0, 0], [1, 1, 1]),
        ([4, 5, 6, 7, 8, 9, 10], [0, 0, 0, 0, 0, 0, 0], [1, 1, 1, 1, 1, 1, 1])]] ∧
    maxLenA [([1, 2, 3], [0, 0, 0], [1, 1, 1]),
        ([4, 5, 6, 7, 8, 9, 10], [0, 0, 0, 0, 0, 0, 0], [1, 1, 1, 1, 1, 1, 1])] = 7 ∧
    (∀ r ∈ padBatch 0 [([1, 2, 3], [0, 0, 0], [1, 1, 1]),
        ([4, 5, 6, 7, 8, 9, 10], [0, 0, 0, 0, 0, 0, 0], [1, 1, 1, 1, 1, 1, 1])],
      r.1.length = maxLenA [([1, 2, 3], [0, 0, 0], [1, 1, 1]),
        ([4, 5, 6, 7, 8, 9, 10], [0, 0, 0, 0, 0, 0, 0], [1, 1, 1, 1, 1, 1, 1])] ∧
      r.2.1.length = maxLenA [([1, 2, 3], [0, 0, 0], [1, 1, 1]),
        ([4, 5, 6, 7, 8, 9, 10], [0, 0, 0, 0, 0, 0, 0], [1, 1, 1, 1, 1, 1, 1])] ∧
      r.2.2.length = maxLenA [([1, 2, 3], [0, 0, 0], [1, 1, 1]),
        ([4, 5, 6, 7, 8, 9, 10], [0, 0, 0, 0, 0, 0, 0], [1, 1, 1, 1, 1, 1, 1])]) :=
  ⟨by decide, by decide,
   ((batch_padding_spec 0 2
        [([1, 2, 3], [0, 0, 0], [1, 1, 1]),
         ([4, 5, 6, 7, 8, 9, 10], [0, 0, 0, 0, 0, 0, 0], [1, 1, 1, 1, 1, 1, 1])]
        (by decide) (by decide)).2
      [([1, 2, 3], [0, 0, 0], [1, 1, 1]),
       ([4, 5, 6, 7, 8, 9, 10], [0, 0, 0, 0, 0, 0, 0], [1, 1, 1, 1, 1, 1, 1])]
      (by decide)).2.2⟩

/-- C7: under bucket padding, an element belongs to bucket `k` exactly when
the bucket key computed from its `input_ids` length is `k`, and every padded
row of a bucket has length equal to the maximum `input_ids` length among that
bucket's members — never larger. -/
theorem bucket_padding_spec (pad_id : Int) (bucket_of : Nat → Nat) (k : Nat)
    (ds : List Element)
    (hsq : ∀ e ∈ ds, e.2.1.length = e.1.length ∧ e.2.2.length = e.1.length) :
    (∀ e ∈ bucketMembers bucket_of k ds, e ∈ ds ∧ bucket_of e.1.length = k) ∧
    (∀ e ∈ ds, bucket_of e.1.length = k → e ∈ bucketMembers bucket_of k ds) ∧
    (∀ r ∈ bucket_padding pad_id bucket_of k ds,
      r.1.length = maxLenA (bucketMembers bucket_of k ds) ∧
      r.2.1.length = maxLenA (bucketMembers bucket_of k ds) ∧
      r.2.2.length = maxLenA (bucketMembers bucket_of k ds)) := by
  refine ⟨?_, ?_, ?_⟩
  · intro e he
    have := List.mem_filter.mp he
    exact ⟨this.1, by simpa using this.2⟩
  · intro e he hk
    exact List.mem_filter.mpr ⟨he, by simpa using hk⟩
  · refine padBatch_row_length pad_id (bucketMembers bucket_of k ds) ?_
    intro e he
    exact hsq e (List.mem_filter.mp he).1

theorem bucket_padding_spec_witness :
    ([9, 9], [0, 0], [1, 1]) ∈
      bucketMembers (fun n => n) 2
        [([7], [0], [1]), ([9, 9], [0, 0], [1, 1]), ([8, 8], [0, 0], [1, 1])] ∧
    maxLenA (bucketMembers (fun n => n) 2
      [([7], [0], [1]), ([9, 9], [0, 0], [1, 1]), ([8, 8], [0, 0], [1, 1])]) = 2 ∧
    (∀ r ∈ bucket_padding 0 (fun n => n) 2
        [([7], [0], [1]), ([9, 9], [0, 0], [1, 1]), ([8, 8], [0, 0], [1, 1])],
      r.1.length = maxLenA (bucketMembers (fun n => n) 2
        [([7], [0], [1]), ([9, 9], [0, 0], [1, 1]), ([8, 8], [0, 0], [1, 1])]) ∧
      r.2.1.length = maxLenA (bucketMembers (fun n => n) 2
        [([7], [0], [1]), ([9, 9], [0, 0], [1, 1]), ([8, 8], [0, 0], [1, 1])]) ∧
      r.2.2.length = maxLenA (bucketMembers (fun n => n) 2
        [([7], [0], [1]), ([9, 9], [0, 0], [1, 1]), ([8, 8], [0, 0], [1, 1])])) :=
  ⟨(bucket_padding_spec 0 (fun n => n) 2
      [([7], [0], [1]), ([9, 9], [0, 0], [1, 1]), ([8, 8], [0, 0], [1, 1])]
      (by decide)).2.1 ([9, 9], [0, 0], [1, 1]) (by decide) (by decide),
   by decide,
   (bucket_padding_spec 0 (fun n => n) 2
      [([7], [0], [1]), ([9, 9], [0, 0], [1, 1]), ([8, 8], [0, 0], [1, 1])]
      (by decide)).2.2⟩

/-- All three components of `r` are the corresponding components of `e`
right-padded with `pad_id`. -/
def padsTriple (pad_id : Int) (e r : Element) : Prop :=
  padsFrom pad_id e.1 r.1 ∧ padsFrom pad_id e.2.1 r.2.1 ∧ padsFrom pad_id e.2.2 r.2.2

instance (p : Int) (e r : Element) : Decidable (padsTriple p e r) := by
  unfold padsTriple
  infer_instance

/-- C2 (amended): for every batch produced by any of the three padding
strategies, the positions beyond each example's true length are filled with
the configured `pad_id` identically in all three fields — including
`attention_mask`, whose padded positions therefore hold `pad_id` (which is 0
under the default `pad_id = 0`, but not for a non-zero `pad_id`). -/
theorem padding_fills_with_pad_id (pad_id : Int) (M bs k : Nat)
    (bucket_of : Nat → Nat) (ds : List Element) :
    (∀ j, j < (chunkList bs ds).length →
      ∀ i, i < ((chunkList bs ds).getD j []).length →
        padsTriple pad_id (((chunkList bs ds).getD j []).getD i ([], [], []))
          (((fixed_padding pad_id M bs ds).getD j []).getD i ([], [], []))) ∧
    (∀ j, j < (chunkList bs ds).length →
      ∀ i, i < ((chunkList bs ds).getD j []).length →
        padsTriple pad_id (((chunkList bs ds).getD j []).getD i ([], [], []))
          (((batch_padding pad_id bs ds).getD j []).getD i ([], [], []))) ∧
    (∀ i, i < (bucketMembers bucket_of k ds).length →
      padsTriple pad_id ((bucketMembers bucket_of k ds).getD i ([], [], []))
        ((bucket_padding pad_id bucket_of k ds).getD i ([], [], []))) := by
  refine ⟨?_, ?_, ?_⟩
  · intro j hj i hi
    rw [fixed_padding, getD_map_of_lt _ _ [] [] hj, getD_map_of_lt _ _ _
      (([], [], []) : Element) hi]
    exact ⟨padsFrom_fixed_row pad_id M _, padsFrom_fixed_row pad_id M _,
      padsFrom_fixed_row pad_id M _⟩
  · intro j hj i hi
    rw [batch_padding, getD_map_of_lt _ _ [] [] hj, padBatch,
      getD_map_of_lt _ _ _ (([], [], []) : Element) hi]
    exact ⟨padsFrom_pad_to pad_id _ _, padsFrom_pad_to pad_id _ _,
      padsFrom_pad_to pad_id _ _⟩
  · intro i hi
    rw [bucket_padding, padBatch, getD_map_of_lt _ _ _ (([], [], []) : Element) hi]
    exact ⟨padsFrom_pad_to pad_id _ _, padsFrom_pad_to pad_id _ _,
      padsFrom_pad_to pad_id _ _⟩

theorem padding_fills_with_pad_id_witness :
    padsTriple 1 (([3], [0], [1]) : Element)
      (((batch_padding 1 2 [([1, 2], [0, 0], [1, 1]), ([3], [0], [1])]).getD 0
          []).getD 1 (([], [], []) : Element)) :=
  (padding_fills_with_pad_id 1 5 2 0 (fun n => n)
      [([1, 2], [0, 0], [1, 1]), ([3], [0], [1])]).2.1 0 (by decide) 1 (by decide)

/-- C2 (counterexample): with configured `pad_id = 1` and batch padding, the
element `([3], [0], [1])` is padded to length 2 in the single output batch,
and the `attention_mask` value at the padded position 1 is `1`, not `0`:
the claim that the attention mask holds 0 at every padded position for any
configured `pad_id` fails on the code, which pads all three fields with
`pad_id`. -/
theorem padding_attention_mask_counterexample :
    (([3], [0], [1]) : Element).2.2.length = 1 ∧
    (((batch_padding 1 2 [([1, 2], [0, 0], [1, 1]), ([3], [0], [1])]).getD 0
        []).getD 1 (([], [], []) : Element)).2.2.getD 1 0 = 1 ∧
    (((batch_padding 1 2 [([1, 2], [0, 0], [1, 1]), ([3], [0], [1])]).getD 0
        []).getD 1 (([], [], []) : Element)).2.2.getD 1 0 ≠ 0 := by
  decide

end UnsupSimCSE
